import Mathlib

/-!
Verification development for the sqlite-live-select engine
(src/sqlite-live-select.js).

The JavaScript source is embedded shallowly:

* Node `Buffer`s become `List Nat` (one entry per byte; indexed reads past
  the end of a JavaScript buffer yield `undefined`, which the bitwise
  operators coerce to `0`, modelled with `List.getD _ 0`; the checked
  `readUIntNN` accessors throw on out-of-range access, modelled with
  `Option`).
* JavaScript 32-bit bitwise arithmetic (`|`, `<<`) is modelled on `Nat`
  with explicit reduction modulo `2 ^ 32` and a final signed
  reinterpretation `toInt32`.
* JavaScript `Map`s (which preserve insertion order) become association
  lists with `alGet` / `alSet` / `alRemove`.
* Row objects become ordered association lists from column name to a
  typed `Value`.  `JSON.stringify` equality of two such objects is ordered
  structural equality (same key order, structurally equal values), which
  is how it is modelled in the diff engine below.
* The external builtin `JSON.parse` is kept abstract as a
  `String → Option JVal` parameter; `JVal` is a first-order JSON value
  type whose object fields are represented as a cons chain.
* `REAL` columns are decoded by `Buffer.readDoubleLE`; the eight raw
  bytes are kept uninterpreted (`Value.real`), since floating point is
  outside the embedding.
-/

/-- Signed reinterpretation of a 32-bit pattern, as JavaScript bitwise
operators produce. -/
def toInt32 (n : Nat) : Int :=
  if n % 4294967296 < 2147483648 then ((n % 4294967296 : Nat) : Int)
  else ((n % 4294967296 : Nat) : Int) - 4294967296

/-- Association-list lookup, modelling JavaScript `Map.get` (and property
access on row objects). -/
def alGet {α β : Type} [BEq α] : List (α × β) → α → Option β
  | [], _ => none
  | (k, v) :: rest, key => if k == key then some v else alGet rest key

/-- Association-list update, modelling `Map.set`: an existing key keeps its
position and gets the new value, a new key is appended. -/
def alSet {α β : Type} [BEq α] : List (α × β) → α → β → List (α × β)
  | [], key, v => [(key, v)]
  | (k, w) :: rest, key, v =>
      if k == key then (k, v) :: rest else (k, w) :: alSet rest key v

/-- Association-list removal, modelling `Map.delete`. -/
def alRemove {α β : Type} [BEq α] : List (α × β) → α → List (α × β)
  | [], _ => []
  | (k, w) :: rest, key =>
      if k == key then rest else (k, w) :: alRemove rest key

/-- Membership test on a list of keys, modelling JavaScript `Set.has`. -/
def elemD {α : Type} [DecidableEq α] (key : α) : List α → Bool
  | [] => false
  | k :: rest => if k = key then true else elemD key rest

/-- Byte slice `buffer.slice(s, e)` with the clamping behaviour of
JavaScript slices. -/
def bufSlice (b : List Nat) (s e : Nat) : List Nat :=
  (b.drop s).take (e - s)

/-- Checked one-byte read, `buffer.readUInt8(i)`; `none` models the thrown
range error. -/
def readUInt8 (b : List Nat) (i : Nat) : Option Nat :=
  b.get? i

/-- Checked big-endian two-byte read, `buffer.readUInt16BE(i)`. -/
def readUInt16BE (b : List Nat) (i : Nat) : Option Nat := do
  let x ← b.get? i
  let y ← b.get? (i + 1)
  pure (x * 256 + y)

/-- Checked little-endian four-byte read, `buffer.readUInt32LE(i)`. -/
def readUInt32LE (b : List Nat) (i : Nat) : Option Nat := do
  let x ← b.get? i
  let y ← b.get? (i + 1)
  let z ← b.get? (i + 2)
  let w ← b.get? (i + 3)
  pure (x + y * 256 + z * 65536 + w * 16777216)

/-- Checked big-endian four-byte read, `buffer.readUInt32BE(i)`. -/
def readUInt32BE (b : List Nat) (i : Nat) : Option Nat := do
  let x ← b.get? i
  let y ← b.get? (i + 1)
  let z ← b.get? (i + 2)
  let w ← b.get? (i + 3)
  pure (x * 16777216 + y * 65536 + z * 256 + w)

/-- Loop body of `getVarintSize` (source lines 261-267): the `while` loop
runs while `size < 8` and the current byte has its continuation bit set;
the fuel argument counts the remaining iterations (`8 - size`).  An
out-of-range read yields `undefined`, and `undefined & 0x80` is `0`. -/
def gvGo (buf : List Nat) (off : Nat) : Nat → Nat → Nat
  | 0, size => size + 1
  | rem + 1, size =>
      if (buf.getD (off + size) 0) &&& 128 ≠ 0 then gvGo buf off rem (size + 1)
      else size + 1

/-- Embedding of `getVarintSize(buffer, offset)`. -/
def getVarintSize (buf : List Nat) (off : Nat) : Nat :=
  gvGo buf off 8 0

/-- Loop body of `readVarint` (source lines 269-279).  Each iteration
performs `value |= (byte & 0x7F) << (7 * size)` with JavaScript 32-bit
semantics: the shift count is taken modulo 32 and the shifted pattern is
truncated to 32 bits; the loop breaks at the first byte whose
most-significant bit is clear (an out-of-range read, being `undefined`,
also breaks, contributing `0`). -/
def rvGo (buf : List Nat) (off : Nat) : Nat → Nat → Nat → Nat
  | 0, _, value => value
  | rem + 1, size, value =>
      let byte := buf.getD (off + size) 0
      let value2 := value ||| (((byte &&& 127) <<< ((7 * size) % 32)) % 4294967296)
      if byte &&& 128 = 0 then value2 else rvGo buf off rem (size + 1) value2

/-- Embedding of `readVarint(buffer, offset)`: the accumulated 32-bit
pattern reinterpreted as a signed JavaScript number. -/
def readVarint (buf : List Nat) (off : Nat) : Int :=
  toInt32 (rvGo buf off 8 0 0)

/-- First-order JSON value type standing for the output of the external
`JSON.parse`; object fields are a cons chain (`objCons key value rest`),
which keeps the type non-nested and fully decidable. -/
inductive JVal : Type
  | num (n : Int)
  | str (s : String)
  | jnull
  | objNil
  | objCons (key : String) (val : JVal) (rest : JVal)
  deriving DecidableEq, Repr

/-- Field list of a JSON object value. -/
def JVal.fields : JVal → List (String × JVal)
  | .objCons k v rest => (k, v) :: rest.fields
  | _ => []

/-- Typed column value as the engine materializes it. -/
inductive Value : Type
  | int (n : Int)
  | real (bytes : List Nat)
  | text (s : String)
  | json (j : JVal)
  | blob (bytes : List Nat)
  | null
  deriving DecidableEq, Repr

/-- Row object: ordered association list from column name to value. -/
abbrev Row : Type := List (String × Value)

/-- Decoding of a byte list as text, `buffer.toString(utf8, s, e)`
restricted to the ASCII range (every byte handled in this development is
below 128, where UTF-8 decoding is the identity on code points). -/
def utf8Decode (bs : List Nat) : String :=
  String.mk (bs.map fun b => Char.ofNat b)

/-- Embedding of `parseValue(data, offset, type)` (source lines 216-236).
The external `JSON.parse` is the parameter `jsonParse`; `none` models the
exception that the `try` block turns into returning the raw text. -/
def parseValue (jsonParse : String → Option JVal) (data : List Nat)
    (off : Nat) (type : String) : Value :=
  if type = "INTEGER" then Value.int (readVarint data off)
  else if type = "REAL" then Value.real (bufSlice data off (off + 8))
  else if type = "TEXT" then
    let length := (readVarint data off).toNat
    let sz := getVarintSize data off
    let textData := utf8Decode (bufSlice data (off + sz) (off + sz + length))
    match jsonParse textData with
    | some j => Value.json j
    | none => Value.text textData
  else if type = "BLOB" then
    let blobLength := (readVarint data off).toNat
    let sz := getVarintSize data off
    Value.blob (bufSlice data (off + sz) (off + sz + blobLength))
  else Value.null

/-- Embedding of `getValueSize(data, offset, type)` (source lines
238-251). -/
def getValueSize (data : List Nat) (off : Nat) (type : String) : Nat :=
  if type = "INTEGER" then getVarintSize data off
  else if type = "REAL" then 8
  else if type = "TEXT" ∨ type = "BLOB" then
    let length := (readVarint data off).toNat
    getVarintSize data off + length
  else 0

/-- Column descriptor from `PRAGMA table_info`: name and declared type. -/
structure Column : Type where
  name : String
  type : String
  deriving DecidableEq, Repr

/-- Loop of `parseRowData` (source lines 198-214): every column of the
cached `table_info` list is decoded in order, each at the running offset;
note that the raw source decodes every declared column, with no record
header and no column-cache filtering. -/
def prGo (jsonParse : String → Option JVal) (data : List Nat) :
    List Column → Nat → Row
  | [], _ => []
  | c :: rest, off =>
      (c.name, parseValue jsonParse data off c.type) ::
        prGo jsonParse data rest (off + getValueSize data off c.type)

/-- Embedding of `parseRowData(tableName, data)` for a table whose cached
column list is `cols`. -/
def parseRowData (jsonParse : String → Option JVal) (cols : List Column)
    (data : List Nat) : Row :=
  prGo jsonParse data cols 0

/-- Per-table decoded changes: table name to (rowid to decoded row).  The
value side is `Option Row` because `applyChanges` distinguishes truthy row
objects from null-like values, although the decoder only ever stores
`some` rows. -/
abbrev Changes : Type := List (String × List (Int × Option Row))

/-- Cell loop of `processWALFrame` (source lines 180-193): for each of the
`count` cell pointers (two bytes each, big-endian, starting at page offset
8) read the cell, taking the FIRST varint at the cell offset as the rowid
and the SECOND as the payload size, then decode the payload bytes with
`parseRowData` and record the row in the changes map. -/
def processCells (jsonParse : String → Option JVal) (cols : List Column)
    (name : String) (pageData : List Nat) :
    Nat → Nat → Changes → Option Changes
  | 0, _, changes => some changes
  | n + 1, ptrOff, changes => do
      let cellOffset ← readUInt16BE pageData ptrOff
      let rowId := readVarint pageData cellOffset
      let s1 := getVarintSize pageData cellOffset
      let payloadSize := readVarint pageData (cellOffset + s1)
      let payloadOffset := cellOffset + s1 + getVarintSize pageData (cellOffset + s1)
      let row := parseRowData jsonParse cols
        (bufSlice pageData payloadOffset (payloadOffset + payloadSize.toNat))
      let tmap := (alGet changes name).getD []
      let changes := alSet changes name (alSet tmap rowId (some row))
      processCells jsonParse cols name pageData n (ptrOff + 2) changes

/-- Embedding of `processWALFrame(pageNumber, pageData, changes)` (source
lines 171-196).  `resolver` models `getTableInfo` (the `sqlite_master`
rootpage lookup), `usedTables` the tracked-table set and `tableInfo` the
cached `PRAGMA table_info` column lists; `none` models a thrown error. -/
def processWALFrame (resolver : Nat → Option String) (usedTables : List String)
    (tableInfo : List (String × List Column)) (jsonParse : String → Option JVal)
    (pageNumber : Nat) (pageData : List Nat) (changes : Changes) :
    Option Changes := do
  let pageType ← readUInt8 pageData 0
  if pageType = 13 then
    match resolver pageNumber with
    | some name =>
        if elemD name usedTables then do
          let cols ← alGet tableInfo name
          let cellCount ← readUInt16BE pageData 3
          processCells jsonParse cols name pageData cellCount 8 changes
        else pure changes
    | none => pure changes
  else pure changes

/-- Frame iteration of `parseWAL` (source lines 152-163): each step reads a
four-byte little-endian `frameSize` at the current offset and a four-byte
little-endian page number at offset `+4`, slices the page data from offset
`+8` up to `offset + frameSize`, and advances by `frameSize`.  A zero
`frameSize` makes the JavaScript loop spin forever; that case (like a
thrown range error) is modelled by `none`. -/
def parseWALFramesGo (buffer : List Nat) : Nat → Nat → Option (List (Nat × List Nat))
  | _, 0 => none
  | offset, fuel + 1 =>
      if offset < buffer.length then
        match readUInt32LE buffer offset, readUInt32LE buffer (offset + 4) with
        | some frameSize, some pageNumber =>
            if frameSize = 0 then none
            else do
              let rest ← parseWALFramesGo buffer (offset + frameSize) fuel
              pure ((pageNumber, bufSlice buffer (offset + 8) (offset + frameSize)) :: rest)
        | _, _ => none
      else some []

/-- List of `(page number, page bytes)` pairs that `parseWAL` hands to
`processWALFrame`, in order.  The fuel `buffer.length + 1` bounds the loop
iterations: every surviving step advances the offset by `frameSize ≥ 1`,
so the fuel can only run out in states the source would never leave. -/
def parseWALFrames (buffer : List Nat) : Option (List (Nat × List Nat)) :=
  parseWALFramesGo buffer 0 (buffer.length + 1)

/-- Modelled from the spec: the standard SQLite WAL frame layout that the
specification describes for the byte range handed to the decoder — a
sequence of frames, each a 24-byte frame header whose first four bytes are
the big-endian page number, followed by exactly `pageSize` bytes of page
image.  `none` models a truncated trailing frame. -/
def specWALFramesGo (pageSize : Nat) (buffer : List Nat) :
    Nat → Nat → Option (List (Nat × List Nat))
  | _, 0 => none
  | offset, fuel + 1 =>
      if offset < buffer.length then
        if offset + 24 + pageSize ≤ buffer.length then do
          let pageNumber ← readUInt32BE buffer offset
          let rest ← specWALFramesGo pageSize buffer (offset + 24 + pageSize) fuel
          pure ((pageNumber, bufSlice buffer (offset + 24) (offset + 24 + pageSize)) :: rest)
        else none
      else some []

/-- Frame list of the byte range under the layout the spec describes; each
step advances by at least 24 bytes, so fuel `buffer.length + 1` never runs
out on the reachable states. -/
def specWALFrames (pageSize : Nat) (buffer : List Nat) :
    Option (List (Nat × List Nat)) :=
  specWALFramesGo pageSize buffer 0 (buffer.length + 1)

/-- Snapshot store: per table, rowid to cached row. -/
abbrev Cache : Type := List (String × List (Int × Row))

/-- Observable engine actions during `applyChanges`: snapshot writes and
`notifyQueries` invocations, in execution order. -/
inductive Ev : Type
  | cacheSet (table : String) (rowId : Int) (row : Row)
  | cacheDelete (table : String) (rowId : Int)
  | notify (table : String) (oldRow : Option Row) (newRow : Option Row)
      (rowDeleted : Bool)
  deriving DecidableEq, Repr

/-- One iteration of the inner loop of `applyChanges` (source lines
286-302): the three live branches (insert, delete, update), each mutating
the table cache and then immediately invoking `notifyQueries`. -/
def applyRow (tc : List (Int × Row)) (tableName : String) (rowId : Int)
    (newRow : Option Row) : List (Int × Row) × List Ev :=
  match alGet tc rowId, newRow with
  | none, some r =>
      (alSet tc rowId r,
       [Ev.cacheSet tableName rowId r, Ev.notify tableName none (some r) false])
  | some o, none =>
      (alRemove tc rowId,
       [Ev.cacheDelete tableName rowId, Ev.notify tableName (some o) none true])
  | some o, some r =>
      (alSet tc rowId r,
       [Ev.cacheSet tableName rowId r, Ev.notify tableName (some o) (some r) false])
  | none, none => (tc, [])

/-- Inner loop of `applyChanges` over the rowid map of one table. -/
def applyRows (tc : List (Int × Row)) (tableName : String) :
    List (Int × Option Row) → List (Int × Row) × List Ev
  | [] => (tc, [])
  | (rid, nr) :: rest =>
      let p1 := applyRow tc tableName rid nr
      let p2 := applyRows p1.1 tableName rest
      (p2.1, p1.2 ++ p2.2)

/-- Embedding of `applyChanges(changes)` (source lines 281-304): iterate
the decoded per-table changes; a table absent from the snapshot store is
skipped (`if (!tableCache) continue`). -/
def applyChanges : Changes → Cache → Cache × List Ev
  | [], cache => (cache, [])
  | (tableName, rowChanges) :: rest, cache =>
      match alGet cache tableName with
      | none => applyChanges rest cache
      | some tc =>
          let p1 := applyRows tc tableName rowChanges
          let cache2 := alSet cache tableName p1.1
          let p2 := applyChanges rest cache2
          (p2.1, p1.2 ++ p2.2)

/-- Registered trigger: table name plus optional predicate taking
`(newRow, oldRow, rowDeleted)`. -/
structure Trigger : Type where
  table : String
  condition : Option (Option Row → Option Row → Bool → Bool)

/-- Embedding of `notifyQueries(tableName, oldRow, newRow, rowDeleted)`
(source lines 306-324) over the registered queries.  State is the
`queuedUpdates` set plus a log of `invalidate()` calls; the source adds the
query id to `queuedUpdates` and immediately invalidates, and nothing in
the source ever removes an id from `queuedUpdates`. -/
def notifyQueries (checkConditionWhenQueued : Bool)
    (queries : List (Nat × List Trigger)) (tableName : String)
    (oldRow newRow : Option Row) (rowDeleted : Bool)
    (queued execLog : List Nat) : List Nat × List Nat :=
  match queries with
  | [] => (queued, execLog)
  | (qid, triggers) :: rest =>
      let needsUpdate := triggers.any fun tr =>
        if tr.table ≠ tableName then false
        else match tr.condition with
          | some c => c newRow oldRow rowDeleted
          | none => true
      if needsUpdate then
        if checkConditionWhenQueued || !(elemD qid queued) then
          notifyQueries checkConditionWhenQueued rest tableName oldRow newRow
            rowDeleted (if elemD qid queued then queued else queued ++ [qid])
            (execLog ++ [qid])
        else
          notifyQueries checkConditionWhenQueued rest tableName oldRow newRow
            rowDeleted queued execLog
      else
        notifyQueries checkConditionWhenQueued rest tableName oldRow newRow
          rowDeleted queued execLog

/-- Result-set diff. -/
structure Diff : Type where
  added : List Row
  changed : List Row
  removed : List Row
  deriving DecidableEq, Repr

/-- Loop of `diffResults` over the new result (source lines 406-413): a
row whose key is absent from the old key set is pushed to `added`; a row
whose key is present is pushed to `changed` when its `JSON.stringify`
differs from that of the first old row with the same key (modelled as
ordered structural inequality; `find` returning `undefined` also counts
as different). -/
def diffNewLoop {κ : Type} [DecidableEq κ] (ks : Row → κ)
    (oldRows : List Row) (oldKeys : List κ) :
    List Row → List Row × List Row → List Row × List Row
  | [], ac => ac
  | row :: rest, ac =>
      let key := ks row
      if !(elemD key oldKeys) then
        diffNewLoop ks oldRows oldKeys rest (ac.1 ++ [row], ac.2)
      else if (oldRows.find? fun r => decide (ks r = key)) ≠ some row then
        diffNewLoop ks oldRows oldKeys rest (ac.1, ac.2 ++ [row])
      else
        diffNewLoop ks oldRows oldKeys rest ac

/-- Loop of `diffResults` over the old result (source lines 415-420). -/
def diffOldLoop {κ : Type} [DecidableEq κ] (ks : Row → κ) (newKeys : List κ) :
    List Row → List Row → List Row
  | [], ac => ac
  | row :: rest, ac =>
      if !(elemD (ks row) newKeys) then diffOldLoop ks newKeys rest (ac ++ [row])
      else diffOldLoop ks newKeys rest ac

/-- Embedding of `diffResults(oldResult, newResult)` (source lines
401-423); `old?` is `none` on the first execution. -/
def diffResults {κ : Type} [DecidableEq κ] (ks : Row → κ)
    (old? : Option (List Row)) (new : List Row) : Diff :=
  let oldRows := old?.getD []
  let oldKeys := oldRows.map ks
  let newKeys := new.map ks
  let ac := diffNewLoop ks oldRows oldKeys new ([], [])
  let removed := diffOldLoop ks newKeys oldRows []
  { added := ac.1, changed := ac.2, removed := removed }

/-- Embedding of `LiveSQLiteSelect.execute` (source lines 386-399): the
first component is the emitted `update` payload (`none` when no event is
emitted), the second the new `lastResult`. -/
def executeStep {κ : Type} [DecidableEq κ] (ks : Row → κ)
    (lastResult : Option (List Row)) (newResult : List Row) :
    Option (Diff × List Row) × List Row :=
  let diff := diffResults ks lastResult newResult
  (if 0 < diff.added.length ∨ 0 < diff.changed.length ∨ 0 < diff.removed.length
   then some (diff, newResult) else none,
   newResult)

/-- Element coercion of JavaScript `Array.prototype.join`: `undefined` and
`null` become the empty string, strings stay, numbers print in decimal,
JSON objects stringify as `[object Object]`, buffers stringify via their
UTF-8 decoding. -/
def jsJoinStr : Option Value → String
  | none => ""
  | some Value.null => ""
  | some (Value.text s) => s
  | some (Value.int n) => toString n
  | some (Value.real bs) => "<double:" ++ toString bs ++ ">"
  | some (Value.json (JVal.num n)) => toString n
  | some (Value.json (JVal.str s)) => s
  | some (Value.json JVal.jnull) => ""
  | some (Value.json _) => "[object Object]"
  | some (Value.blob bs) => utf8Decode bs

/-- Embedding of `LiveSQLiteKeySelector.Columns` (source line 439):
`columns.map(col => row[col]).join(pipe)`. -/
def columnsKey (cols : List String) (row : Row) : String :=
  String.intercalate "|" (cols.map fun c => jsJoinStr (alGet row c))

/-- Per-table column-cache settings (`columnCache[tableName]`). -/
structure CacheSettings : Type where
  includeCols : Option (List String)
  excludeCols : Option (List String)

/-- Column selection of `cacheTable` (source lines 88-96): an include list
wins, otherwise an exclude list filters the `table_info` columns,
otherwise all columns are cached. -/
def cachedColumns (colNames : List String) (cs : CacheSettings) : List String :=
  match cs.includeCols with
  | some inc => inc
  | none =>
      match cs.excludeCols with
      | some exc => colNames.filter fun c => !(elemD c exc)
      | none => colNames

/-- Embedding of the snapshot load of `cacheTable` (source lines 98-104):
the SELECT projects `rowid` plus the cached columns, so for each database
row (given here as rowid plus its full column valuation) the stored row
object carries the `rowid` key and exactly the cached columns, with the
values exactly as the database returned them (no JSON reparsing happens on
this path). -/
def cacheTableStore (colNames : List String) (cs : CacheSettings)
    (dbRows : List (Int × Row)) : List (Int × Row) :=
  dbRows.map fun p =>
    (p.1, ("rowid", Value.int p.1) ::
      (cachedColumns colNames cs).filterMap fun c =>
        (alGet p.2 c).map fun v => (c, v))

/-- Modelled from the claim: the varint reader the claim describes — up to
nine bytes, continuation bit on every byte except the last, 7-bit groups
concatenated little-endian, the ninth byte contributing all eight of its
bits, returning the value together with the number of bytes consumed, and
failing (`none`, the CorruptFrame error) when the buffer ends before the
varint terminates. -/
def crvGo (buf : List Nat) (off : Nat) : Nat → Nat → Int → Option (Int × Nat)
  | 0, _, _ => none
  | fuel + 1, i, acc =>
      match buf.get? (off + i) with
      | none => none
      | some b =>
          if i = 8 then some (acc + (b : Int) * (2 ^ 56 : Int), 9)
          else if b &&& 128 = 0 then
            some (acc + ((b &&& 127 : Nat) : Int) * ((2 : Int) ^ (7 * i)), i + 1)
          else crvGo buf off fuel (i + 1)
            (acc + ((b &&& 127 : Nat) : Int) * ((2 : Int) ^ (7 * i)))

/-- Entry point of the claim-described varint reader. -/
def claimedReadVarint (buf : List Nat) (off : Nat) : Option (Int × Nat) :=
  crvGo buf off 9 0 0

/-- Mutation events (snapshot writes) in a trace. -/
def isMutEv : Ev → Bool
  | Ev.cacheSet _ _ _ => true
  | Ev.cacheDelete _ _ => true
  | Ev.notify _ _ _ _ => false

/-- Notification events in a trace. -/
def isNotifyEv : Ev → Bool
  | Ev.notify _ _ _ _ => true
  | _ => false

/-- Trace shape in which every notification immediately follows its own
snapshot write: the trace is a concatenation of (write, notify) pairs. -/
def pairedTrace : List Ev → Bool
  | [] => true
  | m :: n :: rest => isMutEv m && isNotifyEv n && pairedTrace rest
  | _ :: [] => false

/-- Holds when no snapshot write occurs after any notification, i.e. all
batch mutations are applied before the first invalidation fires. -/
def noMutAfterNotify : List Ev → Bool
  | [] => true
  | e :: rest =>
      if isNotifyEv e then rest.all (fun x => !(isMutEv x)) && noMutAfterNotify rest
      else noMutAfterNotify rest

/-! ## Concrete scenario data -/

/-- Root-page resolver binding page 2 to table `t` (the `sqlite_master`
lookup of `getTableInfo`). -/
def resolverT : Nat → Option String := fun p => if p = 2 then some "t" else none

/-- Cached `table_info` for table `t`: a single INTEGER column `id`. -/
def tinfoT : List (String × List Column) := [("t", [⟨"id", "INTEGER"⟩])]

/-- JSON parser that never succeeds (no text column in play). -/
def jpNone : String → Option JVal := fun _ => none

/-- Leaf page (type 13) for table `t` holding exactly one cell, at offset
12, whose first varint is 6 and whose second varint (payload size) is 1,
with payload byte 7: the WAL image of table `t` after rowid 5 was deleted
and rowid 6 inserted. -/
def c1Page : List Nat := [13, 0, 0, 0, 1, 0, 0, 0, 0, 12, 0, 0, 6, 1, 7]

/-- Snapshot store holding rowid 5 of table `t` before the batch. -/
def c1Cache : Cache := [("t", [(5, [("id", Value.int 5)])])]

/-- Decoded changes of the `c1Page` batch. -/
def c1Changes : Changes := [("t", [(6, some [("id", Value.int 7)])])]

/-- Leaf page whose single cell starts with the varints 3 and then 5
(followed by five payload bytes), to separate the decode order of the
rowid and payload-size varints. -/
def c5Page : List Nat := [13, 0, 0, 0, 1, 0, 0, 0, 0, 12, 0, 0, 3, 5, 7, 9, 9, 9, 9]

/-- Byte range of one standard SQLite WAL frame for page size 8: a
24-byte frame header whose first four bytes are the big-endian page
number 2, then salts and checksums, then the eight page-image bytes. -/
def c3Wal : List Nat :=
  [0, 0, 0, 2, 0, 0, 0, 0, 1, 2, 3, 4, 5, 6, 7, 8,
   9, 10, 11, 12, 13, 14, 15, 16, 13, 0, 0, 0, 1, 0, 0, 0]

/-- One registered live query (id 0) with an unconditional trigger on
table `t`. -/
def c2Queries : List (Nat × List Trigger) :=
  [(0, [{ table := "t", condition := none }])]

/-- Two-mutation batch against a snapshot holding both rowids, used to
observe the interleaving of snapshot writes and notifications. -/
def c7Changes : Changes :=
  [("t", [(6, some [("id", Value.int 7)]), (8, some [("id", Value.int 9)])])]

/-- Snapshot store for the `c7Changes` batch. -/
def c7Cache : Cache :=
  [("t", [(6, [("id", Value.int 0)]), (8, [("id", Value.int 0)])])]

/-- JSON text used by the JSON-affinity scenario. -/
def c9Text : String := "\x7b\"age\":30\x7d"

/-- Structured value of `c9Text`. -/
def c9JVal : JVal := JVal.objCons "age" (JVal.num 30) JVal.objNil

/-- JSON parser succeeding exactly on `c9Text`, standing for `JSON.parse`
at the inputs exercised here. -/
def c9Parse : String → Option JVal := fun s => if s = c9Text then some c9JVal else none

/-- Record bytes of a TEXT column holding `c9Text`: a length varint (10)
followed by the ASCII bytes of the text. -/
def c9Bytes : List Nat := [10, 123, 34, 97, 103, 101, 34, 58, 51, 48, 125]

/-- Row of the `users` table as the database returns it: columns `name`
and `password`. -/
def c6DbRow : Row := [("name", Value.int 1), ("password", Value.int 9)]

/-- WAL payload bytes for the updated `users` row: `name = 2`,
`password = 8` as two INTEGER varints. -/
def c6Payload : List Nat := [2, 8]

/-- Column list of the `users` table. -/
def c6Cols : List Column := [⟨"name", "INTEGER"⟩, ⟨"password", "INTEGER"⟩]

/-- Rows whose single text-like column holds the same JSON object with the
two fields in different orders: deep-equal, but not equal under ordered
serialization. -/
def c8RowOld : Row :=
  [("p", Value.json (JVal.objCons "a" (JVal.num 1) (JVal.objCons "b" (JVal.num 2) JVal.objNil)))]

/-- Reordered-field twin of `c8RowOld`. -/
def c8RowNew : Row :=
  [("p", Value.json (JVal.objCons "b" (JVal.num 2) (JVal.objCons "a" (JVal.num 1) JVal.objNil)))]

/-! ## Claim theorems: concrete code evaluations -/

/-- C1 (code bug): the decoder performs no deletion inference.  On a WAL
batch whose page image for table `t` (page 2) contains only rowid 6, the
snapshot rowid 5 — whose page appears in the batch but which is absent
from the cell set — is not removed: the decoded changes mention only
rowid 6, and applying them leaves rowid 5 in the store and produces no
delete notification.  The claim says rowid 5 must be treated as deleted. -/
theorem c1_no_delete_inference :
    processWALFrame resolverT ["t"] tinfoT jpNone 2 c1Page [] = some c1Changes ∧
    applyChanges c1Changes c1Cache
      = ([("t", [(5, [("id", Value.int 5)]), (6, [("id", Value.int 7)])])],
         [Ev.cacheSet "t" 6 [("id", Value.int 7)],
          Ev.notify "t" none (some [("id", Value.int 7)]) false]) := by
  exact ⟨rfl, rfl⟩

/-- C2 (code bug): `queuedUpdates` is never cleared.  With the default
`checkConditionWhenQueued = false`, the first relevant mutation queues and
invalidates query 0, but the second relevant mutation finds the id still
queued and invalidates nothing: the invalidation log stays `[0]` and the
queued set stays `[0]`.  The claim says the queued set is cleared before
re-execution so a later invalidation queues the query again. -/
theorem c2_queue_never_cleared :
    (notifyQueries false c2Queries "t" none (some [("id", Value.int 1)]) false [] [])
      = ([0], [0]) ∧
    (notifyQueries false c2Queries "t" (some [("id", Value.int 1)])
        (some [("id", Value.int 2)]) false [0] [0])
      = ([0], [0]) := by
  exact ⟨rfl, rfl⟩

/-- C3 (code bug): the WAL byte range is not iterated as 24-byte-header
frames.  On the byte range of one standard frame (page number 2 big-endian
in the first four header bytes, page size 8), the layout the claim
describes yields page 2 with its 8 page-image bytes, while the code reads
the first four bytes as a little-endian frame size (33554432), the next
four as a little-endian page number (0), and slices the rest of the buffer
from offset 8 as the page image. -/
theorem c3_frame_layout_divergence :
    specWALFrames 8 c3Wal = some [(2, [13, 0, 0, 0, 1, 0, 0, 0])] ∧
    parseWALFrames c3Wal
      = some [(0, [1, 2, 3, 4, 5, 6, 7, 8, 9, 10, 11, 12, 13, 14, 15, 16,
                   13, 0, 0, 0, 1, 0, 0, 0])] ∧
    parseWALFrames c3Wal ≠ specWALFrames 8 c3Wal := by
  refine ⟨rfl, rfl, ?_⟩
  decide

/-- C5 (code bug): the cell is decoded rowid-varint first.  On a cell
whose first varint is 3 and second varint is 5, the code registers the
change under rowid 3 (the first varint) and treats 5 as the payload size,
while the claim (and the SQLite format) put the payload-size varint first
and the rowid second; no record header is decoded from the payload at
all. -/
theorem c5_rowid_first_varint :
    readVarint c5Page 12 = 3 ∧ readVarint c5Page 13 = 5 ∧
    processWALFrame resolverT ["t"] tinfoT jpNone 2 c5Page []
      = some [("t", [(3, some [("id", Value.int 7)])])] := by
  exact ⟨rfl, rfl, rfl⟩

/-- C6 (code bug): WAL-decoded rows ignore the column cache.  With
`users` configured to exclude `password`, the initial cache load stores no
`password` key, but `parseRowData` decodes every `table_info` column, so
the row decoded from a WAL frame carries `password`, and applying the
batch stores that key in the snapshot and hands it to the notifier.  The
claim says a non-cached column never appears as a key of any stored or
emitted row. -/
theorem c6_excluded_column_stored :
    cacheTableStore ["name", "password"] ⟨none, some ["password"]⟩ [(1, c6DbRow)]
      = [(1, [("rowid", Value.int 1), ("name", Value.int 1)])] ∧
    parseRowData jpNone c6Cols c6Payload
      = [("name", Value.int 2), ("password", Value.int 8)] ∧
    applyChanges [("users", [(1, some (parseRowData jpNone c6Cols c6Payload))])]
        [("users", cacheTableStore ["name", "password"] ⟨none, some ["password"]⟩ [(1, c6DbRow)])]
      = ([("users", [(1, [("name", Value.int 2), ("password", Value.int 8)])])],
         [Ev.cacheSet "users" 1 [("name", Value.int 2), ("password", Value.int 8)],
          Ev.notify "users" (some [("rowid", Value.int 1), ("name", Value.int 1)])
            (some [("name", Value.int 2), ("password", Value.int 8)]) false]) := by
  exact ⟨rfl, rfl, rfl⟩

/-- C9 (code bug): the JSON substitution is not uniform.  The same text
value `c9Text` is stored as the decoded structure when it arrives through
the WAL decoder (`parseValue`), but the initial cache load stores the raw
string exactly as the database returned it, and the rows a re-executed
query emits likewise pass through `executeStep` untransformed — so a row
loaded at initial cache time and the same row decoded from a WAL frame
carry different values. -/
theorem c9_json_not_uniform :
    parseValue c9Parse c9Bytes 0 "TEXT" = Value.json c9JVal ∧
    cacheTableStore ["profile"] ⟨none, none⟩ [(1, [("profile", Value.text c9Text)])]
      = [(1, [("rowid", Value.int 1), ("profile", Value.text c9Text)])] ∧
    (executeStep (fun _ => "k") none [[("profile", Value.text c9Text)]]).1
      = some (⟨[[("profile", Value.text c9Text)]], [], []⟩,
              [[("profile", Value.text c9Text)]]) ∧
    Value.json c9JVal ≠ Value.text c9Text := by
  refine ⟨rfl, rfl, rfl, ?_⟩
  decide

/-- C10 (confirmed): the Columns key selector joins the selected column
values with the separator `|`; distinct rows with distinct column-value
tuples can collide (the single column valued `a|b` against the columns
valued `a` and `b`, and likewise two distinct two-column rows), and on
colliding keys the diff engine files the new row under `changed` rather
than `added` — key inequality, not tuple equality, is what it compares. -/
theorem c10_columns_key :
    columnsKey ["c"] [("c", Value.text "a|b")]
      = columnsKey ["c1", "c2"] [("c1", Value.text "a"), ("c2", Value.text "b")] ∧
    columnsKey ["x", "y"] [("x", Value.text "a|b"), ("y", Value.text "")]
      = columnsKey ["x", "y"] [("x", Value.text "a"), ("y", Value.text "b|")] ∧
    ([("x", Value.text "a|b"), ("y", Value.text "")] : Row)
      ≠ [("x", Value.text "a"), ("y", Value.text "b|")] ∧
    diffResults (columnsKey ["x", "y"])
        (some [[("x", Value.text "a|b"), ("y", Value.text "")]])
        [[("x", Value.text "a"), ("y", Value.text "b|")]]
      = ⟨[], [[("x", Value.text "a"), ("y", Value.text "b|")]], []⟩ := by
  refine ⟨rfl, rfl, ?_, rfl⟩
  decide

/-- C4 (counterexample): where the claim requires the read to fail with
CorruptFrame — a continuation byte followed by the end of the buffer — the
code succeeds and returns the bare number 0, with no byte count. -/
theorem c4_counterexample :
    claimedReadVarint [128] 0 = none ∧ readVarint [128] 0 = 0 := by
  exact ⟨rfl, rfl⟩

/-- C7 (counterexample): on a two-mutation batch the trace of
`applyChanges` fires a notification after the first snapshot write and
before the second, so it is false that no invalidation occurs until every
mutation of the batch has been applied. -/
theorem c7_counterexample :
    noMutAfterNotify (applyChanges c7Changes c7Cache).2 = false := by
  rfl

/-- C8 (counterexample): `c8RowOld` and `c8RowNew` are deep-equal — the
object fields of the one value are a permutation of the other, with equal
values — yet the diff classifies the new row as `changed`, because the
code compares `JSON.stringify` output, which is sensitive to key order.
The claim, which defines `changed` by deep equality, would require an
empty `changed` here. -/
theorem c8_counterexample :
    ((Value.json (JVal.objCons "a" (JVal.num 1) (JVal.objCons "b" (JVal.num 2) JVal.objNil))
        |> fun v => (match v with | Value.json j => j | _ => JVal.objNil).fields).Perm
      ((JVal.objCons "b" (JVal.num 2) (JVal.objCons "a" (JVal.num 1) JVal.objNil)).fields)) ∧
    diffResults (fun _ => "k") (some [c8RowOld]) [c8RowNew] = ⟨[], [c8RowNew], []⟩ := by
  refine ⟨?_, rfl⟩
  exact List.Perm.swap _ _ _

/-! ## Bitwise helper lemmas -/

/-- Masking with `0x7F` keeps the low seven bits. -/
theorem land127_eq_mod (b : Nat) : b &&& 127 = b % 128 := by
  have h := Nat.and_pow_two_sub_one_eq_mod b 7
  norm_num at h
  exact h

/-- The continuation-bit test on a byte with its high bit set. -/
theorem land128_high (b : Nat) (h1 : 128 ≤ b) (h2 : b < 256) : b &&& 128 = 128 := by
  have ht : b.testBit 7 = true := by
    simp only [Nat.testBit_to_div_mod, decide_eq_true_eq]
    omega
  have h := Nat.and_two_pow b 7
  rw [ht] at h
  norm_num at h
  exact h

/-- The continuation-bit test on a byte with its high bit clear. -/
theorem land128_low (b : Nat) (h : b < 128) : b &&& 128 = 0 := by
  have ht : b.testBit 7 = false := by
    simp only [Nat.testBit_to_div_mod, decide_eq_false_iff_not]
    omega
  have h2 := Nat.and_two_pow b 7
  rw [ht] at h2
  norm_num at h2
  exact h2

/-- Bitwise or of a small value with a shifted value is addition. -/
theorem lor_shift_add (a c i : Nat) (ha : a < 2 ^ i) : a ||| (c <<< i) = c * 2 ^ i + a := by
  have h := Nat.mul_add_lt_is_or ha c
  rw [Nat.shiftLeft_eq, Nat.lor_comm, Nat.mul_comm c (2 ^ i)]
  exact h.symm

/-- The signed reinterpretation is the identity below `2 ^ 31`. -/
theorem toInt32_small (n : Nat) (h : n < 2147483648) : toInt32 n = (n : Int) := by
  have h32 : n % 4294967296 = n := Nat.mod_eq_of_lt (by omega)
  simp [toInt32, h32, h]

/-- A masked byte shifted by at most 21 bits stays below `2 ^ 32`. -/
theorem shl_mod32_eq (c i : Nat) (hc : c < 128) (hi : i ≤ 21) :
    c <<< i % 4294967296 = c <<< i := by
  apply Nat.mod_eq_of_lt
  rw [Nat.shiftLeft_eq]
  calc c * 2 ^ i ≤ 127 * 2 ^ 21 := by
        apply Nat.mul_le_mul (by omega)
        exact Nat.pow_le_pow_right (by norm_num) hi
    _ < 4294967296 := by norm_num

/-- Value of the `readVarint` loop on a one-byte varint. -/
theorem rv_case0 (buf : List Nat) (off : Nat) (hs : buf.getD (off + 0) 0 < 128) :
    rvGo buf off 8 0 0 = buf.getD (off + 0) 0 % 128 := by
  have c0 : buf.getD (off + 0) 0 &&& 128 = 0 := land128_low _ hs
  have m0 : buf.getD (off + 0) 0 &&& 127 = buf.getD (off + 0) 0 % 128 := land127_eq_mod _
  simp at c0 m0 ⊢
  simp [rvGo, c0, m0, Nat.mod_mod_of_dvd]
  omega

/-- Value of the `readVarint` loop on a two-byte varint. -/
theorem rv_case1 (buf : List Nat) (off : Nat)
    (h0 : 128 ≤ buf.getD (off + 0) 0) (hb0 : buf.getD (off + 0) 0 < 256)
    (hs : buf.getD (off + 1) 0 < 128) :
    rvGo buf off 8 0 0 = buf.getD (off + 0) 0 % 128 + buf.getD (off + 1) 0 % 128 * 128 := by
  have c0 : buf.getD (off + 0) 0 &&& 128 = 128 := land128_high _ h0 hb0
  have c1 : buf.getD (off + 1) 0 &&& 128 = 0 := land128_low _ hs
  have m0 : buf.getD (off + 0) 0 &&& 127 = buf.getD (off + 0) 0 % 128 := land127_eq_mod _
  have m1 : buf.getD (off + 1) 0 &&& 127 = buf.getD (off + 1) 0 % 128 := land127_eq_mod _
  simp at c0 c1 m0 m1 ⊢
  simp [rvGo, c0, c1, m0, m1]
  have e7 : (2 : Nat) ^ 7 = 128 := by norm_num
  rw [Nat.mod_eq_of_lt (show buf[off]?.getD 0 % 128 < 4294967296 by omega),
      shl_mod32_eq _ 7 (by omega) (by omega),
      lor_shift_add _ _ 7 (by omega)]
  omega

/-- Value of the `readVarint` loop on a three-byte varint. -/
theorem rv_case2 (buf : List Nat) (off : Nat)
    (h0 : 128 ≤ buf.getD (off + 0) 0) (hb0 : buf.getD (off + 0) 0 < 256)
    (h1 : 128 ≤ buf.getD (off + 1) 0) (hb1 : buf.getD (off + 1) 0 < 256)
    (hs : buf.getD (off + 2) 0 < 128) :
    rvGo buf off 8 0 0 = buf.getD (off + 0) 0 % 128 + buf.getD (off + 1) 0 % 128 * 128
      + buf.getD (off + 2) 0 % 128 * 16384 := by
  have c0 : buf.getD (off + 0) 0 &&& 128 = 128 := land128_high _ h0 hb0
  have c1 : buf.getD (off + 1) 0 &&& 128 = 128 := land128_high _ h1 hb1
  have c2 : buf.getD (off + 2) 0 &&& 128 = 0 := land128_low _ hs
  have m0 : buf.getD (off + 0) 0 &&& 127 = buf.getD (off + 0) 0 % 128 := land127_eq_mod _
  have m1 : buf.getD (off + 1) 0 &&& 127 = buf.getD (off + 1) 0 % 128 := land127_eq_mod _
  have m2 : buf.getD (off + 2) 0 &&& 127 = buf.getD (off + 2) 0 % 128 := land127_eq_mod _
  simp at c0 c1 c2 m0 m1 m2 ⊢
  simp [rvGo, c0, c1, c2, m0, m1, m2]
  have e7 : (2 : Nat) ^ 7 = 128 := by norm_num
  have e14 : (2 : Nat) ^ 14 = 16384 := by norm_num
  rw [Nat.mod_eq_of_lt (show buf[off]?.getD 0 % 128 < 4294967296 by omega),
      shl_mod32_eq _ 7 (by omega) (by omega),
      shl_mod32_eq _ 14 (by omega) (by omega),
      lor_shift_add _ _ 7 (by omega)]
  rw [lor_shift_add _ _ 14 (by omega)]
  omega

/-- Value of the `readVarint` loop on a four-byte varint. -/
theorem rv_case3 (buf : List Nat) (off : Nat)
    (h0 : 128 ≤ buf.getD (off + 0) 0) (hb0 : buf.getD (off + 0) 0 < 256)
    (h1 : 128 ≤ buf.getD (off + 1) 0) (hb1 : buf.getD (off + 1) 0 < 256)
    (h2 : 128 ≤ buf.getD (off + 2) 0) (hb2 : buf.getD (off + 2) 0 < 256)
    (hs : buf.getD (off + 3) 0 < 128) :
    rvGo buf off 8 0 0 = buf.getD (off + 0) 0 % 128 + buf.getD (off + 1) 0 % 128 * 128
      + buf.getD (off + 2) 0 % 128 * 16384 + buf.getD (off + 3) 0 % 128 * 2097152 := by
  have c0 : buf.getD (off + 0) 0 &&& 128 = 128 := land128_high _ h0 hb0
  have c1 : buf.getD (off + 1) 0 &&& 128 = 128 := land128_high _ h1 hb1
  have c2 : buf.getD (off + 2) 0 &&& 128 = 128 := land128_high _ h2 hb2
  have c3 : buf.getD (off + 3) 0 &&& 128 = 0 := land128_low _ hs
  have m0 : buf.getD (off + 0) 0 &&& 127 = buf.getD (off + 0) 0 % 128 := land127_eq_mod _
  have m1 : buf.getD (off + 1) 0 &&& 127 = buf.getD (off + 1) 0 % 128 := land127_eq_mod _
  have m2 : buf.getD (off + 2) 0 &&& 127 = buf.getD (off + 2) 0 % 128 := land127_eq_mod _
  have m3 : buf.getD (off + 3) 0 &&& 127 = buf.getD (off + 3) 0 % 128 := land127_eq_mod _
  simp at c0 c1 c2 c3 m0 m1 m2 m3 ⊢
  simp [rvGo, c0, c1, c2, c3, m0, m1, m2, m3]
  have e7 : (2 : Nat) ^ 7 = 128 := by norm_num
  have e14 : (2 : Nat) ^ 14 = 16384 := by norm_num
  have e21 : (2 : Nat) ^ 21 = 2097152 := by norm_num
  rw [Nat.mod_eq_of_lt (show buf[off]?.getD 0 % 128 < 4294967296 by omega),
      shl_mod32_eq _ 7 (by omega) (by omega),
      shl_mod32_eq _ 14 (by omega) (by omega),
      shl_mod32_eq _ 21 (by omega) (by omega),
      lor_shift_add _ _ 7 (by omega)]
  rw [lor_shift_add _ _ 14 (by omega)]
  rw [lor_shift_add _ _ 21 (by omega)]
  omega

/-- Size of a one-byte varint. -/
theorem gv_case0 (buf : List Nat) (off : Nat) (hs : buf.getD (off + 0) 0 < 128) :
    gvGo buf off 8 0 = 1 := by
  have c0 : buf.getD (off + 0) 0 &&& 128 = 0 := land128_low _ hs
  simp at c0
  simp [gvGo, c0]

/-- Size of a two-byte varint. -/
theorem gv_case1 (buf : List Nat) (off : Nat)
    (h0 : 128 ≤ buf.getD (off + 0) 0) (hb0 : buf.getD (off + 0) 0 < 256)
    (hs : buf.getD (off + 1) 0 < 128) :
    gvGo buf off 8 0 = 2 := by
  have c0 : buf.getD (off + 0) 0 &&& 128 = 128 := land128_high _ h0 hb0
  have c1 : buf.getD (off + 1) 0 &&& 128 = 0 := land128_low _ hs
  simp at c0 c1
  simp [gvGo, c0, c1]

/-- Size of a three-byte varint. -/
theorem gv_case2 (buf : List Nat) (off : Nat)
    (h0 : 128 ≤ buf.getD (off + 0) 0) (hb0 : buf.getD (off + 0) 0 < 256)
    (h1 : 128 ≤ buf.getD (off + 1) 0) (hb1 : buf.getD (off + 1) 0 < 256)
    (hs : buf.getD (off + 2) 0 < 128) :
    gvGo buf off 8 0 = 3 := by
  have c0 : buf.getD (off + 0) 0 &&& 128 = 128 := land128_high _ h0 hb0
  have c1 : buf.getD (off + 1) 0 &&& 128 = 128 := land128_high _ h1 hb1
  have c2 : buf.getD (off + 2) 0 &&& 128 = 0 := land128_low _ hs
  simp at c0 c1 c2
  simp [gvGo, c0, c1, c2]

/-- Size of a four-byte varint. -/
theorem gv_case3 (buf : List Nat) (off : Nat)
    (h0 : 128 ≤ buf.getD (off + 0) 0) (hb0 : buf.getD (off + 0) 0 < 256)
    (h1 : 128 ≤ buf.getD (off + 1) 0) (hb1 : buf.getD (off + 1) 0 < 256)
    (h2 : 128 ≤ buf.getD (off + 2) 0) (hb2 : buf.getD (off + 2) 0 < 256)
    (hs : buf.getD (off + 3) 0 < 128) :
    gvGo buf off 8 0 = 4 := by
  have c0 : buf.getD (off + 0) 0 &&& 128 = 128 := land128_high _ h0 hb0
  have c1 : buf.getD (off + 1) 0 &&& 128 = 128 := land128_high _ h1 hb1
  have c2 : buf.getD (off + 2) 0 &&& 128 = 128 := land128_high _ h2 hb2
  have c3 : buf.getD (off + 3) 0 &&& 128 = 0 := land128_low _ hs
  simp at c0 c1 c2 c3
  simp [gvGo, c0, c1, c2, c3]

/-- C4 (amended): the varint read operation decodes up to 8 bytes, each
contributing only its low seven bits, concatenated little-endian in 7-bit
groups through JavaScript 32-bit arithmetic; it stops at the first byte
with a clear continuation bit, returns only the value (the byte count
comes from the separate skip operation, here confirmed as the number of
continuation bytes plus one), and it does not fail on a truncated buffer.
For varints of up to four bytes (no 32-bit truncation yet) the value is
exactly the little-endian 7-bit concatenation. -/
theorem c4_amended_varint (buf : List Nat) (off k : Nat) (hk : k ≤ 3)
    (hbytes : ∀ i, buf.getD i 0 < 256)
    (hcont : ∀ i, i < k → 128 ≤ buf.getD (off + i) 0)
    (hstop : buf.getD (off + k) 0 < 128) :
    readVarint buf off
      = (((Finset.range (k + 1)).sum fun i => buf.getD (off + i) 0 % 128 * 128 ^ i : Nat) : Int) ∧
    getVarintSize buf off = k + 1 := by
  have hsum : rvGo buf off 8 0 0
      = ((Finset.range (k + 1)).sum fun i => buf.getD (off + i) 0 % 128 * 128 ^ i) ∧
      gvGo buf off 8 0 = k + 1 := by
    interval_cases k
    · refine ⟨?_, gv_case0 buf off hstop⟩
      rw [rv_case0 buf off hstop]
      simp
    · refine ⟨?_, gv_case1 buf off (hcont 0 (by omega)) (hbytes (off + 0)) hstop⟩
      rw [rv_case1 buf off (hcont 0 (by omega)) (hbytes (off + 0)) hstop]
      rw [Finset.sum_range_succ, Finset.sum_range_one]
      norm_num
    · refine ⟨?_, gv_case2 buf off (hcont 0 (by omega)) (hbytes (off + 0))
        (hcont 1 (by omega)) (hbytes (off + 1)) hstop⟩
      rw [rv_case2 buf off (hcont 0 (by omega)) (hbytes (off + 0))
        (hcont 1 (by omega)) (hbytes (off + 1)) hstop]
      rw [Finset.sum_range_succ, Finset.sum_range_succ, Finset.sum_range_one]
      norm_num
    · refine ⟨?_, gv_case3 buf off (hcont 0 (by omega)) (hbytes (off + 0))
        (hcont 1 (by omega)) (hbytes (off + 1)) (hcont 2 (by omega)) (hbytes (off + 2)) hstop⟩
      rw [rv_case3 buf off (hcont 0 (by omega)) (hbytes (off + 0))
        (hcont 1 (by omega)) (hbytes (off + 1)) (hcont 2 (by omega)) (hbytes (off + 2)) hstop]
      rw [Finset.sum_range_succ, Finset.sum_range_succ, Finset.sum_range_succ,
        Finset.sum_range_one]
      norm_num
  refine ⟨?_, hsum.2⟩
  rw [readVarint, hsum.1, toInt32_small]
  have hb : ∀ i, buf.getD (off + i) 0 % 128 < 128 := fun i => Nat.mod_lt _ (by norm_num)
  calc (Finset.range (k + 1)).sum (fun i => buf.getD (off + i) 0 % 128 * 128 ^ i)
      ≤ (Finset.range (k + 1)).sum fun i => 127 * 128 ^ i := by
        apply Finset.sum_le_sum
        intro i _
        exact Nat.mul_le_mul_right _ (by have := hb i; omega)
    _ < 2147483648 := by
        interval_cases k <;> simp [Finset.sum_range_succ]

/-- C4 witness: the two-byte varint `0x81 0x01` decodes to 129 with
length 2. -/
theorem c4_amended_varint_witness :
    readVarint [129, 1] 0 = 129 ∧ getVarintSize [129, 1] 0 = 2 := by
  have h := c4_amended_varint [129, 1] 0 1 (by omega)
    (by intro i; match i with | 0 => decide | 1 => decide | (n + 2) => simp [List.getD])
    (by intro i hi; interval_cases i; decide) (by decide)
  refine ⟨?_, h.2⟩
  rw [h.1]
  decide

/-! ## Batch application trace lemmas -/

/-- Concatenation preserves the (write, notify) pairing of traces. -/
theorem pairedTrace_append : ∀ a : List Ev, pairedTrace a = true →
    ∀ b : List Ev, pairedTrace b = true → pairedTrace (a ++ b) = true
  | [], _, b, hb => by simpa
  | [x], ha, _, _ => by simp [pairedTrace] at ha
  | x :: y :: rest, ha, b, hb => by
      simp only [pairedTrace, Bool.and_eq_true] at ha
      simp only [List.cons_append, pairedTrace, Bool.and_eq_true]
      exact ⟨ha.1, pairedTrace_append rest ha.2 b hb⟩

/-- A single mutation application emits either nothing or a write followed
by its notification. -/
theorem applyRow_paired (tc : List (Int × Row)) (t : String) (rid : Int)
    (nr : Option Row) : pairedTrace (applyRow tc t rid nr).2 = true := by
  unfold applyRow
  cases alGet tc rid <;> cases nr <;> rfl

/-- The per-table loop emits a paired trace. -/
theorem applyRows_paired (t : String) : ∀ (rows : List (Int × Option Row))
    (tc : List (Int × Row)), pairedTrace (applyRows tc t rows).2 = true
  | [], _ => rfl
  | (rid, nr) :: rest, tc => by
      simp only [applyRows]
      exact pairedTrace_append _ (applyRow_paired tc t rid nr) _
        (applyRows_paired t rest _)

/-- The whole batch loop emits a paired trace. -/
theorem applyChanges_paired : ∀ (changes : Changes) (cache : Cache),
    pairedTrace (applyChanges changes cache).2 = true
  | [], _ => rfl
  | (tableName, rowChanges) :: rest, cache => by
      simp only [applyChanges]
      cases alGet cache tableName with
      | none => exact applyChanges_paired rest cache
      | some tc =>
          simp only
          exact pairedTrace_append _ (applyRows_paired tableName rowChanges tc) _
            (applyChanges_paired rest _)

/-- C7 (amended): for every decoded batch, each live-query invalidation
fires immediately after its own mutation is applied to the snapshot store
and before any later mutation of the batch is applied: the event trace of
`applyChanges` is a concatenation of (snapshot write, notify) pairs, so a
predicate observes the state after exactly the mutations up to and
including its own. -/
theorem c7_each_notify_immediate (changes : Changes) (cache : Cache) :
    pairedTrace (applyChanges changes cache).2 = true :=
  applyChanges_paired changes cache

/-! ## Diff engine characterization -/

/-- The new-result loop of the diff engine accumulates exactly the two
filters the claim describes (with serialization inequality in place of
deep inequality). -/
theorem diffNewLoop_spec {κ : Type} [DecidableEq κ] (ks : Row → κ)
    (oldRows : List Row) (oldKeys : List κ) : ∀ (l : List Row) (a c : List Row),
    diffNewLoop ks oldRows oldKeys l (a, c)
      = (a ++ l.filter (fun r => !(elemD (ks r) oldKeys)),
         c ++ l.filter (fun r => elemD (ks r) oldKeys
            && decide ((oldRows.find? fun o => decide (ks o = ks r)) ≠ some r)))
  | [], a, c => by simp [diffNewLoop]
  | row :: rest, a, c => by
      simp only [diffNewLoop]
      by_cases h1 : elemD (ks row) oldKeys
      · by_cases h2 : (oldRows.find? fun o => decide (ks o = ks row)) ≠ some row
        · rw [if_neg (by simp [h1]), if_pos h2]
          rw [diffNewLoop_spec ks oldRows oldKeys rest a (c ++ [row])]
          simp [List.filter_cons, h1, h2]
        · rw [if_neg (by simp [h1]), if_neg h2]
          rw [diffNewLoop_spec ks oldRows oldKeys rest a c]
          simp [List.filter_cons, h1, h2]
      · rw [if_pos (by simp [h1])]
        rw [diffNewLoop_spec ks oldRows oldKeys rest (a ++ [row]) c]
        simp [List.filter_cons, h1]

/-- The old-result loop of the diff engine accumulates the removed
filter. -/
theorem diffOldLoop_spec {κ : Type} [DecidableEq κ] (ks : Row → κ)
    (newKeys : List κ) : ∀ (l : List Row) (a : List Row),
    diffOldLoop ks newKeys l a = a ++ l.filter (fun r => !(elemD (ks r) newKeys))
  | [], a => by simp [diffOldLoop]
  | row :: rest, a => by
      simp only [diffOldLoop]
      by_cases h1 : elemD (ks row) newKeys
      · rw [if_neg (by simp [h1])]
        rw [diffOldLoop_spec ks newKeys rest a]
        simp [List.filter_cons, h1]
      · rw [if_pos (by simp [h1])]
        rw [diffOldLoop_spec ks newKeys rest (a ++ [row])]
        simp [List.filter_cons, h1]

/-- C8 (amended): for every key selector and result pair, `added` is
exactly the rows of new whose keys do not occur in old, `removed` exactly
the rows of old whose keys do not occur in new, and `changed` exactly the
rows of new whose keys occur in old but whose ordered serialization
(`JSON.stringify`, modelled as ordered structural equality) differs from
that of the first old row with the same key — each in result order; when
old is absent, `added` equals new and the other sequences are empty; and
an update event is emitted iff at least one of the three sequences is
non-empty. -/
theorem c8_amended_diff {κ : Type} [DecidableEq κ] (ks : Row → κ)
    (old? : Option (List Row)) (new : List Row) :
    (diffResults ks old? new).added
        = new.filter (fun r => !(elemD (ks r) ((old?.getD []).map ks))) ∧
    (diffResults ks old? new).changed
        = new.filter (fun r => elemD (ks r) ((old?.getD []).map ks)
            && decide (((old?.getD []).find? fun o => decide (ks o = ks r)) ≠ some r)) ∧
    (diffResults ks old? new).removed
        = (old?.getD []).filter (fun r => !(elemD (ks r) (new.map ks))) ∧
    (old? = none → diffResults ks old? new = ⟨new, [], []⟩) ∧
    ((executeStep ks old? new).1 ≠ none ↔
      ¬((diffResults ks old? new).added = [] ∧ (diffResults ks old? new).changed = []
        ∧ (diffResults ks old? new).removed = [])) := by
  refine ⟨?_, ?_, ?_, ?_, ?_⟩
  · simp [diffResults, diffNewLoop_spec]
  · simp [diffResults, diffNewLoop_spec]
  · simp [diffResults, diffOldLoop_spec]
  · intro h
    subst h
    simp [diffResults, diffNewLoop_spec, diffOldLoop_spec, elemD]
  · simp only [executeStep, ne_eq, ite_eq_right_iff, reduceCtorEq, imp_false, not_or,
      not_and, not_lt, Nat.le_zero, List.length_eq_zero]

/-- C8 witness: on a first execution (absent old result) the whole new
result is `added`. -/
theorem c8_amended_diff_witness :
    diffResults (fun _ : Row => (0 : Nat)) none [[("a", Value.int 1)]]
      = ⟨[[("a", Value.int 1)]], [], []⟩ :=
  (c8_amended_diff (fun _ => 0) none [[("a", Value.int 1)]]).2.2.2.1 rfl
